import Mathlib

/-!
Verification of the qaac sink/FLAC-source core: bit-level codec-config
parsing, magic-cookie splitting, MP4 tag writing and the FLAC streaming
decode adapter, shallowly embedded from the C++ sources.

Bytes are modelled as `Nat` values; every read normalizes to the low 8
bits (`% 256`), matching `uint8_t` buffers.  Machine-integer overflow is
made explicit with `% 2 ^ 32` / `% 2 ^ 64` where the source uses
`uint32_t` / `uint64_t`.
-/

namespace Qaac

/-- Read the byte at index `i` of a `uint8_t` buffer (0 past the end;
in-range reads of the embedded programs never rely on the default). -/
def byteAt (buf : List Nat) (i : Nat) : Nat := buf.getD i 0 % 256

/-- Modelled from the spec: the Bit Reader (`BitStream`, declared in the
missing header `bitstream.h`) performs sequential MSB-first bit
extraction over a byte buffer.  `bitAt buf i` is the i-th bit of the
buffer in MSB-first order. -/
def bitAt (buf : List Nat) (i : Nat) : Nat :=
  byteAt buf (i / 8) / 2 ^ (7 - i % 8) % 2

/-- Modelled from the spec: `get(n)` returns the next `n` bits as an
unsigned integer, MSB-first.  `bsGet buf pos n` is the value of the `n`
bits starting at bit position `pos`. -/
def bsGet (buf : List Nat) (pos : Nat) : Nat → Nat
  | 0 => 0
  | n + 1 => bsGet buf pos n * 2 + bitAt buf (pos + n)

/-- Modelled from the spec: the Bit Reader state is a byte buffer plus a
bit cursor advanced by each `get`. -/
structure BitStream where
  buf : List Nat
  pos : Nat
deriving Repr, DecidableEq

/-- Modelled from the spec: `get(n)` returns the next `n` bits MSB-first
and advances the cursor by `n`. -/
def BitStream.get (bs : BitStream) (n : Nat) : Nat × BitStream :=
  (bsGet bs.buf bs.pos n, ⟨bs.buf, bs.pos + n⟩)

/-- The fixed sampling-rate table `tab` of `parseDecSpecificConfig`. -/
def aacSamplingRateTab : List Nat :=
  [96000, 88200, 64000, 48000, 44100, 32000, 24000, 22050,
   16000, 12000, 11025, 8000, 7350, 0, 0, 0]

/-- Result of `parseDecSpecificConfig` (its three out-parameters). -/
structure DecSpecificConfig where
  sampling_rate_index : Nat
  sampling_rate : Nat
  channel_config : Nat
deriving Repr, DecidableEq

/-- `parseDecSpecificConfig` from the sink source: 5-bit object type,
4-bit sampling-rate index, 24-bit explicit rate when the index is 15
else a table lookup, then the 4-bit channel configuration. -/
def parseDecSpecificConfig (config : List Nat) : DecSpecificConfig :=
  let bs0 : BitStream := ⟨config, 0⟩
  let r1 := bs0.get 5
  let r2 := r1.2.get 4
  let idx := r2.1
  let r3 := if idx = 15 then r2.2.get 24 else (aacSamplingRateTab.getD idx 0, r2.2)
  let r4 := r3.2.get 4
  ⟨idx, r3.1, r4.1⟩

/-- Any MSB-first `n`-bit read is below `2 ^ n`. -/
theorem bsGet_lt (buf : List Nat) (pos : Nat) : ∀ n, bsGet buf pos n < 2 ^ n := by
  intro n
  induction n with
  | zero => simp [bsGet]
  | succ n ih =>
    have hb : bitAt buf (pos + n) < 2 := Nat.mod_lt _ (by norm_num)
    simp only [bsGet, pow_succ]
    omega

/-- The explicit-rate encoding of a 24-bit value `v`: object type 0,
rate index 15, the 24 rate bits, channel config 0, packed MSB-first into
5 bytes. -/
def encodeExplicitRate (v : Nat) : List Nat :=
  [7, 128 + v / 2 ^ 17, v / 2 ^ 9 % 256, v / 2 % 256, v % 2 * 128]

example : parseDecSpecificConfig (encodeExplicitRate 48001) =
    ⟨15, 48001, 0⟩ := by decide

example : parseDecSpecificConfig [18, 16] = ⟨4, 44100, 2⟩ := by decide

theorem encodeExplicitRate_index (v : Nat) (hv : v < 2 ^ 24) :
    bsGet (encodeExplicitRate v) 5 4 = 15 := by
  have h17 : v / 2 ^ 17 < 128 := by omega
  simp only [encodeExplicitRate, bsGet, bitAt, byteAt,
    List.getD, List.getElem?_cons_zero, List.getElem?_cons_succ]
  norm_num
  omega

/-- A read of `m + n` bits splits into an `m`-bit read followed by an
`n`-bit read. -/
theorem bsGet_add (buf : List Nat) (pos m : Nat) :
    ∀ n, bsGet buf pos (m + n) = bsGet buf pos m * 2 ^ n + bsGet buf (pos + m) n := by
  intro n
  induction n with
  | zero => simp [bsGet]
  | succ n ih =>
    have hmn : m + (n + 1) = (m + n) + 1 := by omega
    rw [hmn]
    simp only [bsGet]
    rw [ih, ← Nat.add_assoc, pow_succ]
    ring

/-- A read confined to byte `j` (starting `k` bits in, `k + n ≤ 8`) is a
div/mod of that byte. -/
theorem bsGet_window (buf : List Nat) (j k : Nat) :
    ∀ n, k + n ≤ 8 → bsGet buf (8 * j + k) n = byteAt buf j / 2 ^ (8 - k - n) % 2 ^ n := by
  intro n
  induction n with
  | zero => intro _; simp [bsGet, Nat.mod_one]
  | succ n ih =>
    intro hn
    simp only [bsGet]
    rw [ih (by omega)]
    have hdiv : (8 * j + k + n) / 8 = j := by omega
    have hmod : (8 * j + k + n) % 8 = k + n := by omega
    simp only [bitAt, hdiv, hmod]
    have h1 : 8 - k - n = (8 - k - (n + 1)) + 1 := by omega
    have h2 : 7 - (k + n) = 8 - k - (n + 1) := by omega
    rw [h1, h2]
    have h3 : byteAt buf j / 2 ^ ((8 - k - (n + 1)) + 1) =
        byteAt buf j / 2 ^ (8 - k - (n + 1)) / 2 := by
      rw [pow_succ, ← Nat.div_div_eq_div_mul]
    rw [h3]
    have h4 : (2 : Nat) ^ (n + 1) = 2 * 2 ^ n := by ring
    rw [h4, Nat.mod_mul]
    ring

theorem encodeExplicitRate_rate (v : Nat) (hv : v < 2 ^ 24) :
    bsGet (encodeExplicitRate v) 9 24 = v := by
  have h17 : v / 2 ^ 17 < 128 := by omega
  have s1 := bsGet_add (encodeExplicitRate v) 9 7 17
  have s2 := bsGet_add (encodeExplicitRate v) 16 8 9
  have s3 := bsGet_add (encodeExplicitRate v) 24 8 1
  have w1 := bsGet_window (encodeExplicitRate v) 1 1 7 (by norm_num)
  have w2 := bsGet_window (encodeExplicitRate v) 2 0 8 (by norm_num)
  have w3 := bsGet_window (encodeExplicitRate v) 3 0 8 (by norm_num)
  have w4 := bsGet_window (encodeExplicitRate v) 4 0 1 (by norm_num)
  norm_num at s1 s2 s3 w1 w2 w3 w4
  rw [s1, s2, s3, w1, w2, w3, w4]
  simp only [byteAt, encodeExplicitRate, List.getD, List.getElem?_cons_zero,
    List.getElem?_cons_succ]
  norm_num
  omega

theorem encodeExplicitRate_chan (v : Nat) (hv : v < 2 ^ 24) :
    bsGet (encodeExplicitRate v) 33 4 = 0 := by
  have h17 : v / 2 ^ 17 < 128 := by omega
  simp only [encodeExplicitRate, bsGet, bitAt, byteAt,
    List.getD, List.getElem?_cons_zero, List.getElem?_cons_succ]
  norm_num
  omega

theorem parse_encodeExplicitRate (v : Nat) (hv : v < 2 ^ 24) :
    parseDecSpecificConfig (encodeExplicitRate v) = ⟨15, v, 0⟩ := by
  simp only [parseDecSpecificConfig, BitStream.get]
  norm_num [encodeExplicitRate_index v hv, encodeExplicitRate_rate v hv,
    encodeExplicitRate_chan v hv]

/-- Closed form of `parseDecSpecificConfig` in terms of absolute bit
positions. -/
theorem parseDecSpecificConfig_eq (config : List Nat) :
    parseDecSpecificConfig config =
      if bsGet config 5 4 = 15 then
        ⟨bsGet config 5 4, bsGet config 9 24, bsGet config 33 4⟩
      else
        ⟨bsGet config 5 4, aacSamplingRateTab.getD (bsGet config 5 4) 0,
          bsGet config 9 4⟩ := by
  by_cases h : bsGet config 5 4 = 15 <;>
    simp only [parseDecSpecificConfig, BitStream.get] <;>
    norm_num [h]

/-- C1: `parseDecSpecificConfig` reads a 5-bit object type then the
4-bit sampling-rate index (bits 5–8); for index ≤ 12 the rate is the
fixed table entry, for index 15 the rate is the following 24 bits read
MSB-first — realizing every value in [0, 2^24 − 1] — and the 4-bit
channel configuration follows (bits 33–36 resp. 9–12). -/
theorem C1_parseDecSpecificConfig (config : List Nat) :
    (parseDecSpecificConfig config).sampling_rate_index = bsGet config 5 4 ∧
    ((parseDecSpecificConfig config).sampling_rate_index ≤ 12 →
      (parseDecSpecificConfig config).sampling_rate =
        aacSamplingRateTab.getD (parseDecSpecificConfig config).sampling_rate_index 0) ∧
    ((parseDecSpecificConfig config).sampling_rate_index = 15 →
      (parseDecSpecificConfig config).sampling_rate = bsGet config 9 24 ∧
      (parseDecSpecificConfig config).sampling_rate ≤ 2 ^ 24 - 1) ∧
    (∀ v, v < 2 ^ 24 → ∃ cfg,
      (parseDecSpecificConfig cfg).sampling_rate_index = 15 ∧
      (parseDecSpecificConfig cfg).sampling_rate = v) ∧
    (parseDecSpecificConfig config).channel_config =
      bsGet config (if bsGet config 5 4 = 15 then 33 else 9) 4 := by
  have heq := parseDecSpecificConfig_eq config
  have hlt24 := bsGet_lt config 9 24
  have hwit : ∀ v, v < 2 ^ 24 → ∃ cfg,
      (parseDecSpecificConfig cfg).sampling_rate_index = 15 ∧
      (parseDecSpecificConfig cfg).sampling_rate = v := fun v hv =>
    ⟨encodeExplicitRate v, by rw [parse_encodeExplicitRate v hv],
      by rw [parse_encodeExplicitRate v hv]⟩
  by_cases h : bsGet config 5 4 = 15
  · rw [heq, if_pos h]
    refine ⟨rfl, fun hle => ?_, fun _ => ⟨rfl, ?_⟩, hwit, ?_⟩
    · have hle2 : bsGet config 5 4 ≤ 12 := hle
      omega
    · show bsGet config 9 24 ≤ 2 ^ 24 - 1
      omega
    · show bsGet config 33 4 = bsGet config (if bsGet config 5 4 = 15 then 33 else 9) 4
      rw [if_pos h]
  · rw [heq, if_neg h]
    refine ⟨rfl, fun _ => rfl, fun h15 => ?_, hwit, ?_⟩
    · exact absurd (show bsGet config 5 4 = 15 from h15) h
    · show bsGet config 9 4 = bsGet config (if bsGet config 5 4 = 15 then 33 else 9) 4
      rw [if_neg h]

/-- C1 witness: a concrete config with index 4 decodes to the table
entry 44100. -/
theorem C1_witness :
    (parseDecSpecificConfig [18, 16]).sampling_rate =
      aacSamplingRateTab.getD (parseDecSpecificConfig [18, 16]).sampling_rate_index 0 :=
  (C1_parseDecSpecificConfig [18, 16]).2.1 (by decide)

/-! ### parseMagicCookieALAC -/

/-- `len` bytes of the buffer starting at offset `off`, normalized to
`uint8_t` range (fewer when the buffer ends first; the C++ `memcpy` /
`memcmp` would read out of bounds there). -/
def byteSlice (buf : List Nat) (off len : Nat) : List Nat :=
  ((buf.drop off).take len).map (fun b => b % 256)

/-- The bytes of the string "frmaalac" that `parseMagicCookieALAC`
compares at offset 4. -/
def frmaalacBytes : List Nat := [102, 114, 109, 97, 97, 108, 97, 99]

/-- The bytes of the marker "chan". -/
def chanBytes : List Nat := [99, 104, 97, 110]

/-- The cookie after the optional wrapper skip of
`parseMagicCookieALAC`: when bytes [4:12] are "frma"+"alac", the fixed
24-byte prefix is dropped (`cp += 24`). -/
def effectiveALACCookie (cookie : List Nat) : List Nat :=
  if byteSlice cookie 4 8 = frmaalacBytes then cookie.drop 24 else cookie

/-- `parseMagicCookieALAC` from the sink source: skip an optional
24-byte "frma"+"alac" wrapper, copy the next 24 bytes (if present) as
the ALAC config, and when at least 24 further bytes follow with "chan"
at sub-offset 4, copy the 12 bytes at sub-offset 12 as the channel
layout.  Returns the pair of out-vectors `(alac, chan)`. -/
def parseMagicCookieALAC (cookie : List Nat) : List Nat × List Nat :=
  let rest := effectiveALACCookie cookie
  if 24 ≤ rest.length then
    let alac := byteSlice rest 0 24
    let rest2 := rest.drop 24
    if 24 ≤ rest2.length ∧ byteSlice rest2 4 4 = chanBytes then
      (alac, byteSlice rest2 12 12)
    else (alac, [])
  else ([], [])

/-- A 36-byte cookie with the "chan" marker at bytes [24:28], as in the
claim: 24 zero config bytes, "chan", 8 more bytes. -/
def C2cexCookie : List Nat :=
  List.replicate 24 0 ++ chanBytes ++ List.replicate 8 0

/-- C2 counterexample: for the 36-byte cookie with "chan" at bytes
[24:28] the channel-layout output is empty, not 12 bytes: after the
24-byte config only 12 bytes remain, below the 24 the code requires,
and the marker is compared at bytes [28:32], not [24:28]. -/
theorem C2_counterexample :
    C2cexCookie.length = 36 ∧ byteSlice C2cexCookie 24 4 = chanBytes ∧
    (parseMagicCookieALAC C2cexCookie).2.length ≠ 12 := by decide

/-- C2 (amended): with no "frma"+"alac" wrapper, a 24-byte cookie
yields a 24-byte config and an empty channel layout; a 48-byte cookie
with "chan" at bytes [28:32] yields the first 24 bytes as config and
bytes [36:48] as the 12-byte channel layout. -/
theorem C2_parseMagicCookieALAC (cookie : List Nat)
    (hnw : byteSlice cookie 4 8 ≠ frmaalacBytes) :
    (cookie.length = 24 →
      (parseMagicCookieALAC cookie).1.length = 24 ∧
      (parseMagicCookieALAC cookie).2 = []) ∧
    (cookie.length = 48 → byteSlice (cookie.drop 24) 4 4 = chanBytes →
      (parseMagicCookieALAC cookie).1 = byteSlice cookie 0 24 ∧
      (parseMagicCookieALAC cookie).2 = byteSlice cookie 36 12) := by
  constructor
  · intro h24
    simp only [parseMagicCookieALAC, effectiveALACCookie, if_neg hnw, h24]
    norm_num
    constructor
    · simp [byteSlice, List.length_take, h24]
    · rw [if_neg]
      simp [h24]
  · intro h48 hchan
    simp only [parseMagicCookieALAC, effectiveALACCookie, if_neg hnw, h48]
    norm_num
    rw [if_pos ⟨by simp [h48], hchan⟩]
    refine ⟨rfl, ?_⟩
    simp [byteSlice, List.drop_drop]

/-- C2 witness: a concrete 48-byte cookie with "chan" at [28:32]. -/
theorem C2_witness :
    (parseMagicCookieALAC
        (List.replicate 28 1 ++ chanBytes ++ List.replicate 16 2)).2 =
      byteSlice (List.replicate 28 1 ++ chanBytes ++ List.replicate 16 2) 36 12 :=
  ((C2_parseMagicCookieALAC _ (by decide)).2 (by decide) (by decide)).2

/-! ### Descriptor walk: getDescripterHeader / parseMagicCookieAAC

The C++ cursor `p` (with limit `end`) is modelled as the remaining
suffix of the buffer: `*p` is the head, `p < end` is nonemptiness and
`p += k` is `List.drop k`. -/

/-- The size loop of `getDescripterHeader`: each byte contributes its
low 7 bits to the `uint32_t` size accumulator
(`*size = (*size << 7) | (n & 0x7f)`; the truncated shifted accumulator
has zero low 7 bits, so the bitwise or is addition); a byte with the
high bit clear ends the size.  `none` (the C++ `false`) when the buffer
ends first. -/
def readDescSize : List Nat → Nat → Option (Nat × List Nat)
  | [], _ => none
  | b :: rest, acc =>
    let acc2 := acc * 128 % 2 ^ 32 + b % 256 % 128
    if b % 256 < 128 then some (acc2, rest) else readDescSize rest acc2

/-- `getDescripterHeader`: a 1-byte tag followed by the base-128
encoded size. -/
def getDescripterHeader : List Nat → Option (Nat × Nat × List Nat)
  | [] => none
  | b :: rest =>
    match readDescSize rest 0 with
    | some (size, rest2) => some (b % 256, size, rest2)
    | none => none

theorem readDescSize_length :
    ∀ (l : List Nat) (acc size : Nat) (rest : List Nat),
      readDescSize l acc = some (size, rest) → rest.length < l.length := by
  intro l
  induction l with
  | nil => intro acc size rest h; cases h
  | cons b t ih =>
    intro acc size rest h
    simp only [readDescSize] at h
    split at h
    · obtain ⟨-, rfl⟩ := Prod.mk.injEq .. ▸ Option.some.inj h
      simp
    · exact Nat.lt_succ_of_lt (ih _ _ _ h)

theorem getDescripterHeader_length (buf : List Nat) (tag size : Nat)
    (rest2 : List Nat) (h : getDescripterHeader buf = some (tag, size, rest2)) :
    rest2.length < buf.length := by
  match buf with
  | [] => cases h
  | b :: rest =>
    simp only [getDescripterHeader] at h
    split at h
    · rename_i sz r2 heq
      obtain ⟨-, -, rfl⟩ := by
        simpa only [Option.some.injEq, Prod.mk.injEq] using h
      exact Nat.lt_succ_of_lt (readDescSize_length _ _ _ _ heq)
    · cases h

/-- `parseMagicCookieAAC` from the sink source: walk descriptor
headers; tag 3 skips 3 bytes, tag 4 skips 13 bytes, tag 5 copies
exactly `size` bytes and returns, any other tag skips `size` bytes;
`none` models the thrown format error when a header read fails. -/
def parseMagicCookieAAC (cookie : List Nat) : Option (List Nat) :=
  match hh : getDescripterHeader cookie with
  | none => none
  | some (tag, size, rest) =>
    if tag = 3 then parseMagicCookieAAC (rest.drop 3)
    else if tag = 4 then parseMagicCookieAAC (rest.drop 13)
    else if tag = 5 then some ((rest.take size).map (fun b => b % 256))
    else parseMagicCookieAAC (rest.drop size)
termination_by cookie.length
decreasing_by
  all_goals
    have hlen := getDescripterHeader_length cookie _ _ _ hh
    simp only [List.length_drop]
    omega

/-- Pure base-128 value of a byte list (low 7 bits each), folded onto
`acc`. -/
def base128From (acc : Nat) (l : List Nat) : Nat :=
  l.foldl (fun a b => a * 128 + b % 256 % 128) acc

theorem base128From_mod (l : List Nat) :
    ∀ a : Nat, base128From a l % 2 ^ 32 = base128From (a % 2 ^ 32) l % 2 ^ 32 := by
  induction l with
  | nil => intro a; simp [base128From]
  | cons b l ih =>
    intro a
    show base128From (a * 128 + b % 256 % 128) l % 2 ^ 32 = _
    have hm : (a * 128 + b % 256 % 128) % 2 ^ 32 =
        (a % 2 ^ 32 * 128 + b % 256 % 128) % 2 ^ 32 := by omega
    rw [ih (a * 128 + b % 256 % 128), hm, ← ih (a % 2 ^ 32 * 128 + b % 256 % 128)]
    rfl

/-- The size loop on a buffer made of continuation bytes `mid` (high
bit set), a final byte `c` (high bit clear) and a remainder computes
the base-128 value of `mid ++ [c]` truncated to 32 bits. -/
theorem readDescSize_spec :
    ∀ (mid : List Nat) (c : Nat) (rest : List Nat) (acc : Nat),
      acc < 2 ^ 32 → (∀ b ∈ mid, 128 ≤ b % 256) → c % 256 < 128 →
      readDescSize (mid ++ c :: rest) acc =
        some (base128From acc (mid ++ [c]) % 2 ^ 32, rest) := by
  intro mid
  induction mid with
  | nil =>
    intro c rest acc hacc _ hc
    simp only [List.nil_append, readDescSize, if_pos hc]
    have : acc * 128 % 2 ^ 32 + c % 256 % 128 =
        base128From acc [c] % 2 ^ 32 := by
      show _ = (acc * 128 + c % 256 % 128) % 2 ^ 32
      omega
    rw [this]
  | cons b mid ih =>
    intro c rest acc hacc hmid hc
    have hb : 128 ≤ b % 256 := hmid b (by simp)
    simp only [List.cons_append, readDescSize, List.append_eq]
    rw [if_neg (show ¬ b % 256 < 128 by omega)]
    rw [ih c rest (acc * 128 % 2 ^ 32 + b % 256 % 128) (by omega)
      (fun x hx => hmid x (by simp [hx])) hc]
    have heq : base128From (acc * 128 % 2 ^ 32 + b % 256 % 128) (mid ++ [c]) % 2 ^ 32 =
        base128From acc (b :: (mid ++ [c])) % 2 ^ 32 := by
      show _ = base128From (acc * 128 + b % 256 % 128) (mid ++ [c]) % 2 ^ 32
      rw [base128From_mod _ (acc * 128 % 2 ^ 32 + b % 256 % 128),
        base128From_mod _ (acc * 128 + b % 256 % 128)]
      have : (acc * 128 % 2 ^ 32 + b % 256 % 128) % 2 ^ 32 =
          (acc * 128 + b % 256 % 128) % 2 ^ 32 := by omega
      rw [this]
    rw [heq]

/-- C3: `parseMagicCookieAAC` walks (tag, size) descriptor headers
left-to-right, the size assembled 7 bits per byte (high bit =
continuation, value truncated to `uint32_t`); tag 3 skips exactly 3
payload bytes, tag 4 exactly 13, tag 5 copies exactly `size` bytes and
returns, any other tag skips `size` bytes; a failed header read before
any tag 5 yields the format error (`none`). -/
theorem C3_parseMagicCookieAAC (cookie : List Nat) :
    (getDescripterHeader cookie = none → parseMagicCookieAAC cookie = none) ∧
    (∀ size rest, getDescripterHeader cookie = some (3, size, rest) →
        parseMagicCookieAAC cookie = parseMagicCookieAAC (rest.drop 3)) ∧
    (∀ size rest, getDescripterHeader cookie = some (4, size, rest) →
        parseMagicCookieAAC cookie = parseMagicCookieAAC (rest.drop 13)) ∧
    (∀ size rest, getDescripterHeader cookie = some (5, size, rest) →
        parseMagicCookieAAC cookie = some ((rest.take size).map (fun b => b % 256))) ∧
    (∀ tag size rest, getDescripterHeader cookie = some (tag, size, rest) →
        tag ≠ 3 → tag ≠ 4 → tag ≠ 5 →
        parseMagicCookieAAC cookie = parseMagicCookieAAC (rest.drop size)) ∧
    (∀ b mid c rest, (∀ x ∈ mid, 128 ≤ x % 256) → c % 256 < 128 →
        getDescripterHeader (b :: (mid ++ c :: rest)) =
          some (b % 256, base128From 0 (mid ++ [c]) % 2 ^ 32, rest)) := by
  refine ⟨?_, ?_, ?_, ?_, ?_, ?_⟩
  · intro h
    rw [parseMagicCookieAAC]
    split
    · rfl
    · rename_i tag size rest heq
      rw [h] at heq
      cases heq
  · intro size rest h
    rw [parseMagicCookieAAC]
    split
    · rename_i heq; rw [h] at heq; cases heq
    · rename_i tag sz rst heq
      rw [h] at heq
      obtain ⟨rfl, rfl, rfl⟩ := by
        simpa only [Option.some.injEq, Prod.mk.injEq] using heq.symm
      simp
  · intro size rest h
    rw [parseMagicCookieAAC]
    split
    · rename_i heq; rw [h] at heq; cases heq
    · rename_i tag sz rst heq
      rw [h] at heq
      obtain ⟨rfl, rfl, rfl⟩ := by
        simpa only [Option.some.injEq, Prod.mk.injEq] using heq.symm
      simp
  · intro size rest h
    rw [parseMagicCookieAAC]
    split
    · rename_i heq; rw [h] at heq; cases heq
    · rename_i tag sz rst heq
      rw [h] at heq
      obtain ⟨rfl, rfl, rfl⟩ := by
        simpa only [Option.some.injEq, Prod.mk.injEq] using heq.symm
      simp
  · intro tag size rest h h3 h4 h5
    rw [parseMagicCookieAAC]
    split
    · rename_i heq; rw [h] at heq; cases heq
    · rename_i tg sz rst heq
      rw [h] at heq
      obtain ⟨rfl, rfl, rfl⟩ := by
        simpa only [Option.some.injEq, Prod.mk.injEq] using heq.symm
      simp [h3, h4, h5]
  · intro b mid c rest hmid hc
    simp only [getDescripterHeader]
    rw [readDescSize_spec mid c rest 0 (by norm_num) hmid hc]

/-- C3 witness: a concrete cookie whose first descriptor is tag 5 of
size 2. -/
theorem C3_witness :
    parseMagicCookieAAC [5, 2, 77, 88] =
      some (([77, 88].take 2).map (fun b => b % 256)) :=
  (C3_parseMagicCookieAAC [5, 2, 77, 88]).2.2.2.1 2 [77, 88] (by decide)

/-! ### writeTrackTag / writeDiskTag (sscanf "%d/%d") -/

/-- The characters `isspace` accepts, skipped by a `%d` conversion. -/
def isSpaceChar (c : Char) : Bool :=
  c == ' ' || c == '\t' || c == '\n' || c.toNat == 11 || c.toNat == 12 || c == '\r'

/-- Decimal digit test. -/
def isDigitChar (c : Char) : Bool :=
  48 ≤ c.toNat && c.toNat ≤ 57

/-- Greedy decimal-digit accumulation of a `%d` conversion. -/
def scanDigits : List Char → Nat → Nat × List Char
  | [], acc => (acc, [])
  | c :: rest, acc =>
    if isDigitChar c then scanDigits rest (acc * 10 + (c.toNat - 48))
    else (acc, c :: rest)

/-- The `sscanf` `%d` conversion: skip whitespace, optional sign, then
at least one decimal digit; `none` when no integer can be parsed
(overflow of the C `int` is not modelled — the embedded callers pass
in-range values). -/
def scanInt (s : List Char) : Option (Int × List Char) :=
  match s.dropWhile (fun c => isSpaceChar c) with
  | [] => none
  | '-' :: rest =>
    match rest with
    | c :: _ =>
      if isDigitChar c then
        let r := scanDigits rest 0
        some (-(r.1 : Int), r.2)
      else none
    | [] => none
  | '+' :: rest =>
    match rest with
    | c :: _ =>
      if isDigitChar c then
        let r := scanDigits rest 0
        some ((r.1 : Int), r.2)
      else none
    | [] => none
  | c :: rest =>
    if isDigitChar c then
      let r := scanDigits (c :: rest) 0
      some ((r.1 : Int), r.2)
    else none

/-- `MP4SinkBase::writeTrackTag`: `int n, total = 0;` then
`sscanf(value, "%d/%d", &n, &total)`; a positive return writes
`(n, total)`, otherwise nothing is written (`none`). -/
def writeTrackTag (value : String) : Option (Int × Int) :=
  match scanInt value.toList with
  | none => none
  | some (n, rest) =>
    match rest with
    | '/' :: rest2 =>
      match scanInt rest2 with
      | some (t, _) => some (n, t)
      | none => some (n, 0)
    | _ => some (n, 0)

/-- `MP4SinkBase::writeDiskTag`: identical parsing, writing the disk
pair instead. -/
def writeDiskTag (value : String) : Option (Int × Int) :=
  match scanInt value.toList with
  | none => none
  | some (n, rest) =>
    match rest with
    | '/' :: rest2 =>
      match scanInt rest2 with
      | some (t, _) => some (n, t)
      | none => some (n, 0)
    | _ => some (n, 0)

/-- C7: `writeTrackTag` and `writeDiskTag` write (3, 12) for "3/12",
write (3, 0) for "3" (the total defaults to the initialized 0), and
write nothing when no integer parses at all. -/
theorem C7_writeTrackDiskTag :
    writeTrackTag "3/12" = some (3, 12) ∧ writeDiskTag "3/12" = some (3, 12) ∧
    writeTrackTag "3" = some (3, 0) ∧ writeDiskTag "3" = some (3, 0) ∧
    (∀ value, scanInt value.toList = none →
      writeTrackTag value = none ∧ writeDiskTag value = none) := by
  refine ⟨by decide, by decide, by decide, by decide, ?_⟩
  intro value h
  have h2 : scanInt value.data = none := h
  constructor
  · simp [writeTrackTag, h2]
  · simp [writeDiskTag, h2]

/-- C7 witness: "abc" parses no integer and nothing is written. -/
theorem C7_witness :
    writeTrackTag "abc" = none ∧ writeDiskTag "abc" = none :=
  C7_writeTrackDiskTag.2.2.2.2 "abc" (by decide)

/-! ### ALACSink constructor -/

/-- The length checks of `ALACSink::ALACSink` on the parsed cookie:
a config of exactly 24 bytes, a channel layout of length 0 or 12;
`.error` models the thrown `std::runtime_error`, `.ok` carries the
`AddAlacAudioTrack` arguments. -/
def ALACCheck (r : List Nat × List Nat) : Except String (List Nat × List Nat) :=
  if r.1.length ≠ 24 then .error "Invalid ALACSpecificConfig!"
  else if r.2.length ≠ 0 ∧ r.2.length ≠ 12 then .error "Invalid ALACChannelLayout!"
  else .ok r

/-- `ALACSink::ALACSink`: parse the magic cookie, then apply the
length checks. -/
def ALACSink_init (magicCookie : List Nat) : Except String (List Nat × List Nat) :=
  ALACCheck (parseMagicCookieALAC magicCookie)

/-- C8 counterexample: a cookie of exactly 24 bytes — whose first
24-or-fewer bytes are the entire effective cookie — is accepted, not
rejected: the extracted config has length exactly 24. -/
theorem C8_counterexample :
    (List.replicate 24 7 : List Nat).length ≤ 24 ∧
    ALACSink_init (List.replicate 24 7) = .ok (List.replicate 24 7, []) :=
  ⟨by decide, by rfl⟩

/-- C8 (amended): construction fails with the config format error iff
the effective cookie (after the optional wrapper skip) is shorter than
24 bytes; with at least 24 bytes it succeeds, the extracted channel
layout always having length 0 (absent, accepted) or 12; and the check
itself rejects any extracted layout of length other than 0 or 12 while
accepting an absent one. -/
theorem C8_ALACSink (cookie : List Nat) :
    ((effectiveALACCookie cookie).length < 24 →
      ALACSink_init cookie = .error "Invalid ALACSpecificConfig!") ∧
    (24 ≤ (effectiveALACCookie cookie).length →
      ALACSink_init cookie = .ok (parseMagicCookieALAC cookie) ∧
      ((parseMagicCookieALAC cookie).2 = [] ∨
        (parseMagicCookieALAC cookie).2.length = 12)) ∧
    (∀ alac chan : List Nat, alac.length = 24 → chan.length ≠ 0 → chan.length ≠ 12 →
      ALACCheck (alac, chan) = .error "Invalid ALACChannelLayout!") ∧
    (∀ alac : List Nat, alac.length = 24 →
      ALACCheck (alac, []) = .ok (alac, [])) := by
  have halac : 24 ≤ (effectiveALACCookie cookie).length →
      (parseMagicCookieALAC cookie).1 = byteSlice (effectiveALACCookie cookie) 0 24 ∧
      ((parseMagicCookieALAC cookie).2 = [] ∨
        (parseMagicCookieALAC cookie).2.length = 12) := by
    intro h
    unfold parseMagicCookieALAC
    rw [if_pos h]
    by_cases hc : 24 ≤ ((effectiveALACCookie cookie).drop 24).length ∧
        byteSlice ((effectiveALACCookie cookie).drop 24) 4 4 = chanBytes
    · rw [if_pos hc]
      refine ⟨rfl, Or.inr ?_⟩
      have := hc.1
      simp only [List.length_drop] at this ⊢
      simp [byteSlice]
      omega
    · rw [if_neg hc]
      exact ⟨rfl, Or.inl rfl⟩
  refine ⟨?_, ?_, ?_, ?_⟩
  · intro h
    have hp : parseMagicCookieALAC cookie = ([], []) := by
      unfold parseMagicCookieALAC
      rw [if_neg (by omega)]
    simp [ALACSink_init, ALACCheck, hp]
  · intro h
    obtain ⟨h1, h2⟩ := halac h
    have hl : (parseMagicCookieALAC cookie).1.length = 24 := by
      rw [h1]
      simp [byteSlice]
      omega
    constructor
    · show ALACCheck _ = _
      unfold ALACCheck
      rw [if_neg (by omega), if_neg (by rcases h2 with h2 | h2 <;> simp [h2])]
    · exact h2
  · intro alac chan ha hc0 hc12
    unfold ALACCheck
    rw [if_neg (show ¬ alac.length ≠ 24 by omega)]
    rw [if_pos ⟨hc0, hc12⟩]
  · intro alac ha
    unfold ALACCheck
    simp [ha]

/-- C8 witness: the empty cookie is rejected with the config error. -/
theorem C8_witness :
    ALACSink_init [] = .error "Invalid ALACSpecificConfig!" :=
  (C8_ALACSink []).1 (by decide)

/-! ### MP4SinkBase::close -/

/-- State for `MP4SinkBase::close`: the `m_closed` flag plus a count
of `m_mp4file.Close()` invocations on the underlying container. -/
structure CloseState where
  closed : Bool
  containerCloses : Nat
deriving Repr, DecidableEq

/-- `MP4SinkBase::close`: on the first call set `m_closed` (before
`Close()`, so even a throwing close cannot run twice) and close the
container file; afterwards do nothing. -/
def MP4SinkBase_close (st : CloseState) : CloseState :=
  if !st.closed then { closed := true, containerCloses := st.containerCloses + 1 }
  else st

/-- C9: `close` is idempotent — a second call is a no-op, the
container close runs at most once over any number of calls, and the
first call on an open sink closes the container exactly once. -/
theorem C9_close_idempotent (st : CloseState) :
    MP4SinkBase_close (MP4SinkBase_close st) = MP4SinkBase_close st ∧
    (MP4SinkBase_close st).closed = true ∧
    (∀ n, (MP4SinkBase_close^[n] st).containerCloses ≤ st.containerCloses + 1) ∧
    (st.closed = false →
      (MP4SinkBase_close st).containerCloses = st.containerCloses + 1) := by
  have hcl : (MP4SinkBase_close st).closed = true := by
    unfold MP4SinkBase_close
    cases h : st.closed <;> simp [h]
  have hidem : MP4SinkBase_close (MP4SinkBase_close st) = MP4SinkBase_close st := by
    unfold MP4SinkBase_close
    cases h : st.closed <;> simp [h]
  have hiter : ∀ n, MP4SinkBase_close^[n] st = st ∨
      MP4SinkBase_close^[n] st = MP4SinkBase_close st := by
    intro n
    induction n with
    | zero => exact Or.inl rfl
    | succ n ih =>
      rw [Function.iterate_succ_apply']
      rcases ih with h | h <;> rw [h]
      · exact Or.inr rfl
      · exact Or.inr hidem
  refine ⟨hidem, hcl, ?_, ?_⟩
  · intro n
    have hbound : (MP4SinkBase_close st).containerCloses ≤ st.containerCloses + 1 := by
      unfold MP4SinkBase_close
      cases h : st.closed <;> simp [h]
    rcases hiter n with h | h <;> rw [h] <;> omega
  · intro h
    unfold MP4SinkBase_close
    simp [h]

/-- C9 witness: closing a fresh sink twice equals closing it once, and
the container close ran exactly once. -/
theorem C9_witness :
    MP4SinkBase_close (MP4SinkBase_close ⟨false, 0⟩) =
      MP4SinkBase_close ⟨false, 0⟩ ∧
    (MP4SinkBase_close ⟨false, 0⟩).containerCloses = 1 :=
  ⟨(C9_close_idempotent ⟨false, 0⟩).1, (C9_close_idempotent ⟨false, 0⟩).2.2.2 rfl⟩

/-! ### MP4Sink::writeTags (gapless metadata) -/

/-- Modelled from the spec: the gapless mode is a bitmask with
independent bits for the legacy text tag (iTunSMPB) and the native
edit list; the named constants live in the missing header `sink.h`. -/
def MODE_ITUNSMPB : Nat := 1

/-- Modelled from the spec: the native edit-list bit of the gapless
mode bitmask. -/
def MODE_EDTS : Nat := 2

/-- Modelled from the spec: `iTunSMPB_template` (missing header)
renders the legacy gapless tag as ASCII decimal text with four
fields. -/
def iTunSMPB_value (f1 f2 f3 f4 : Nat) : String :=
  toString f1 ++ " " ++ toString f2 ++ " " ++ toString f3 ++ " " ++ toString f4

/-- `uint64_t` subtraction (wrap mod 2^64). -/
def u64sub (a b : Nat) : Nat := (a % 2 ^ 64 + 2 ^ 64 - b % 2 ^ 64) % 2 ^ 64

/-- The state `MP4Sink::writeTags` reads: the container track's sample
count and duration, the accumulated edit parameters, the gapless mode
and the tag dictionary. -/
structure MP4SinkState where
  nframes : Nat
  duration : Nat
  edit_start : Nat
  edit_duration : Nat
  gapless_mode : Nat
  tags : List (String × String)
deriving Repr, DecidableEq

/-- `m_tags[key] = value` on the association-list model of the tag
dictionary. -/
def setTag (tags : List (String × String)) (k v : String) : List (String × String) :=
  (k, v) :: tags.filter (fun p => p.1 != k)

/-- Dictionary lookup. -/
def lookupTag (tags : List (String × String)) (k : String) : Option String :=
  (tags.find? (fun p => p.1 == k)).map Prod.snd

/-- The observable effects of `MP4Sink::writeTags`: the tag dictionary
afterwards, whether a track edit and a sample-group description were
added, and that `MP4SinkBase::writeTags` ran. -/
structure WriteTagsEffects where
  tags : List (String × String)
  editAdded : Bool
  sampleGroupAdded : Bool
  baseWriteTagsCalled : Bool
deriving Repr, DecidableEq

/-- `MP4Sink::writeTags`: when the track holds samples, insert the
iTunSMPB tag (legacy bit) with fields `m_edit_start`,
`uint32_t(duration - m_edit_start - m_edit_duration)`,
`uint32_t(m_edit_duration >> 32)`, `uint32_t(m_edit_duration &
0xffffffff)`, and add the track edit plus sample-group description
(edit-list bit); then always run the base-class tag writing. -/
def MP4Sink_writeTags (st : MP4SinkState) : WriteTagsEffects :=
  let tags1 :=
    if st.nframes ≠ 0 ∧ st.gapless_mode &&& MODE_ITUNSMPB ≠ 0 then
      setTag st.tags "iTunSMPB"
        (iTunSMPB_value (st.edit_start % 2 ^ 64)
          (u64sub (u64sub st.duration st.edit_start) st.edit_duration % 2 ^ 32)
          (st.edit_duration % 2 ^ 64 / 2 ^ 32)
          (st.edit_duration % 2 ^ 32))
    else st.tags
  { tags := tags1
    editAdded := (st.nframes != 0) && (st.gapless_mode &&& MODE_EDTS != 0)
    sampleGroupAdded := (st.nframes != 0) && (st.gapless_mode &&& MODE_EDTS != 0)
    baseWriteTagsCalled := true }

theorem lookupTag_setTag (tags : List (String × String)) (k v : String) :
    lookupTag (setTag tags k v) k = some v := by
  unfold lookupTag setTag
  simp [List.find?]

/-- C4: with a nonzero sample count and the legacy-text-tag bit set,
the iTunSMPB value holds exactly the four decimal fields editStart,
(duration − editStart − editDuration) truncated to 32 bits,
editDuration >> 32, and editDuration mod 2^32, in that order. -/
theorem C4_writeTags_iTunSMPB (st : MP4SinkState)
    (hn : st.nframes ≠ 0) (hm : st.gapless_mode &&& MODE_ITUNSMPB ≠ 0)
    (hd : st.duration < 2 ^ 64) (hs : st.edit_start < 2 ^ 64)
    (he : st.edit_duration < 2 ^ 64) :
    lookupTag (MP4Sink_writeTags st).tags "iTunSMPB" =
      some (iTunSMPB_value
        st.edit_start
        (((st.duration : Int) - st.edit_start - st.edit_duration) % 2 ^ 32).toNat
        (st.edit_duration / 2 ^ 32)
        (st.edit_duration % 2 ^ 32)) := by
  have hf1 : st.edit_start % 2 ^ 64 = st.edit_start := Nat.mod_eq_of_lt hs
  have hf2 : u64sub (u64sub st.duration st.edit_start) st.edit_duration % 2 ^ 32 =
      (((st.duration : Int) - st.edit_start - st.edit_duration) % 2 ^ 32).toNat := by
    unfold u64sub
    omega
  have hf3 : st.edit_duration % 2 ^ 64 / 2 ^ 32 = st.edit_duration / 2 ^ 32 := by
    rw [Nat.mod_eq_of_lt he]
  unfold MP4Sink_writeTags
  rw [if_pos ⟨hn, hm⟩]
  show lookupTag (setTag st.tags "iTunSMPB" _) "iTunSMPB" = _
  rw [lookupTag_setTag, hf1, hf2, hf3]

/-- C4 witness: the spec's example — editStart 5000, editDuration
352800, duration 359000 — yields the four fields 5000 1200 0 352800. -/
theorem C4_witness :
    lookupTag (MP4Sink_writeTags ⟨1, 359000, 5000, 352800, 1, []⟩).tags "iTunSMPB" =
      some (iTunSMPB_value 5000 1200 0 352800) := by
  rw [C4_writeTags_iTunSMPB ⟨1, 359000, 5000, 352800, 1, []⟩ (by decide) (by decide)
    (by norm_num) (by norm_num) (by norm_num)]
  rfl

/-- C10: with zero media samples no gapless metadata is produced at
all — the tag dictionary is unchanged, no track edit and no
sample-group description is added — while the base-class tag and
chapter writing still runs. -/
theorem C10_writeTags_zero_samples (st : MP4SinkState) (hn : st.nframes = 0) :
    (MP4Sink_writeTags st).tags = st.tags ∧
    (MP4Sink_writeTags st).editAdded = false ∧
    (MP4Sink_writeTags st).sampleGroupAdded = false ∧
    (MP4Sink_writeTags st).baseWriteTagsCalled = true := by
  unfold MP4Sink_writeTags
  rw [if_neg (by simp [hn])]
  refine ⟨rfl, ?_, ?_, rfl⟩ <;> simp [hn]

/-- C10 witness: an empty track with both gapless bits set leaves the
tag dictionary untouched and adds no edit. -/
theorem C10_witness :
    (MP4Sink_writeTags ⟨0, 100, 5, 7, 3, [("a", "b")]⟩).tags = [("a", "b")] ∧
    (MP4Sink_writeTags ⟨0, 100, 5, 7, 3, [("a", "b")]⟩).editAdded = false :=
  ⟨(C10_writeTags_zero_samples ⟨0, 100, 5, 7, 3, [("a", "b")]⟩ rfl).1,
   (C10_writeTags_zero_samples ⟨0, 100, 5, 7, 3, [("a", "b")]⟩ rfl).2.1⟩

/-! ### FLACSource: readSamples and the decode callbacks -/

/-- The fields of a decoded FLAC frame header read by
`FLACSource::writeCallback`. -/
structure FrameHeader where
  channels : Nat
  sample_rate : Nat
  bits_per_sample : Nat
  blocksize : Nat
deriving Repr, DecidableEq

/-- The stream-wide format recorded at open time (`m_asbd`). -/
structure StreamFormat where
  mChannelsPerFrame : Nat
  mSampleRate : Nat
  mBitsPerChannel : Nat
deriving Repr, DecidableEq

/-- Wrap an integer to the signed 32-bit range (the value of the
`int32_t` left shift). -/
def wrap32 (x : Int) : Int := (x + 2 ^ 31) % 2 ^ 32 - 2 ^ 31

/-- The interleaved, MSB-aligned block `writeCallback` commits: for
block index `i` then channel `n`, `buffer[n][i] << (32 - bits)`. -/
def interleaveShifted (hdr : FrameHeader) (data : List (List Int)) : List Int :=
  (List.range hdr.blocksize).flatMap (fun i =>
    (List.range hdr.channels).map (fun n =>
      wrap32 ((data.getD n []).getD i 0 * 2 ^ (32 - hdr.bits_per_sample))))

/-- The `FLACSource` state seen by `readSamples` and the callbacks:
the sticky `m_giveup` flag, whether the decoder state reached
end-of-stream, the open-time format, the buffered interleaved samples
and the remaining declared sample range (bounding
`adjustSamplesToRead`, modelled from the spec). -/
structure FLACSourceState where
  giveup : Bool
  atEos : Bool
  asbd : StreamFormat
  buffer : List Int
  remaining : Nat
deriving Repr, DecidableEq

/-- `FLAC__StreamDecoderWriteStatus`. -/
inductive WriteStatus where
  | cont
  | abort
deriving Repr, DecidableEq

/-- `FLACSource::writeCallback`: a frame whose channel count, sample
rate or bit depth differs from the open-time values returns ABORT;
otherwise every sample is shifted left by `32 - bits_per_sample` and
the interleaved block is committed to the sample buffer. -/
def writeCallback (st : FLACSourceState) (hdr : FrameHeader)
    (data : List (List Int)) : WriteStatus × FLACSourceState :=
  if hdr.channels ≠ st.asbd.mChannelsPerFrame ∨
     hdr.sample_rate ≠ st.asbd.mSampleRate ∨
     hdr.bits_per_sample ≠ st.asbd.mBitsPerChannel then
    (.abort, st)
  else
    (.cont, { st with buffer := st.buffer ++ interleaveShifted hdr data })

/-- One `stream_decoder_process_single` outcome, seen through the
callbacks: a decoded frame (write callback), a decoder error (error
callback, which sets the sticky flag), or reaching end-of-stream. -/
inductive DecodeEvent where
  | frame (hdr : FrameHeader) (data : List (List Int))
  | decodeError
  | endOfStream
deriving Repr, DecidableEq

/-- `stream_decoder_process_single` under one oracle event: a frame
runs the write callback and an ABORT makes the call fail (the `TRYFL`
wrapper throws); an error event sets `m_giveup`; end-of-stream flips
the decoder state. -/
def processSingle (st : FLACSourceState) (e : DecodeEvent) :
    Except String FLACSourceState :=
  match e with
  | .frame hdr data =>
    match writeCallback st hdr data with
    | (.cont, st2) => .ok st2
    | (.abort, _) => .error "stream_decoder_process_single failed"
  | .decodeError => .ok { st with giveup := true }
  | .endOfStream => .ok { st with atEos := true }

/-- Buffered whole sample frames (`m_buffer.count()`). -/
def bufferCount (st : FLACSourceState) : Nat :=
  st.buffer.length / st.asbd.mChannelsPerFrame

/-- The drain step at the top of the `readSamples` loop: copy out
`min(count, rest)` frames and advance. -/
def drainBuffer (st : FLACSourceState) (rest : Nat) : FLACSourceState × Nat :=
  let count := min (bufferCount st) rest
  ({ st with buffer := st.buffer.drop (count * st.asbd.mChannelsPerFrame) },
   rest - count)

/-- The while-loop of `FLACSource::readSamples`: drain the buffer;
while samples are still wanted, fail on the sticky error flag, stop at
end-of-stream, or decode one more frame via `process_single` (one
oracle event per call).  Returns the frames still unserved at exit. -/
def readSamplesLoop (st : FLACSourceState) (events : List DecodeEvent)
    (rest : Nat) : Except String (Nat × FLACSourceState) :=
  let d := drainBuffer st rest
  if d.2 = 0 then .ok (0, d.1)
  else if d.1.giveup then .error "FLAC decoder error"
  else if d.1.atEos then .ok (d.2, d.1)
  else
    match events with
    | [] => .error "decoder made no progress"
    | e :: es =>
      match processSingle d.1 e with
      | .ok st2 => readSamplesLoop st2 es d.2
      | .error msg => .error msg

/-- `FLACSource::readSamples`: clamp the request to the remaining
range (`adjustSamplesToRead`), return 0 at once for an empty request,
else run the loop and account the frames delivered. -/
def readSamples (st : FLACSourceState) (events : List DecodeEvent)
    (nsamples : Nat) : Except String (Nat × FLACSourceState) :=
  let n := min nsamples st.remaining
  if n = 0 then .ok (0, st)
  else
    match readSamplesLoop st events n with
    | .ok (restLeft, st2) =>
      .ok (n - restLeft, { st2 with remaining := st2.remaining - (n - restLeft) })
    | .error msg => .error msg

theorem readSamplesLoop_giveup (st : FLACSourceState) (events : List DecodeEvent)
    (rest : Nat) (hg : st.giveup = true) (h : bufferCount st < rest) :
    readSamplesLoop st events rest = .error "FLAC decoder error" := by
  have h2 : (drainBuffer st rest).2 = rest - bufferCount st := by
    simp only [drainBuffer]
    omega
  have h1 : (drainBuffer st rest).1.giveup = true := hg
  rw [readSamplesLoop.eq_def]
  rw [if_neg (by rw [h2]; omega), if_pos h1]

theorem readSamplesLoop_drain (st : FLACSourceState) (events : List DecodeEvent)
    (rest : Nat) (h : rest ≤ bufferCount st) :
    readSamplesLoop st events rest = .ok (0, (drainBuffer st rest).1) := by
  rw [readSamplesLoop.eq_def]
  rw [if_pos (by simp only [drainBuffer]; omega)]

/-- C5 counterexample: with the sticky flag set but 4 frames already
buffered, `readSamples` for 4 frames returns them normally instead of
throwing. -/
theorem C5_counterexample :
    (⟨true, false, ⟨1, 44100, 16⟩, [10, 20, 30, 40], 100⟩ :
        FLACSourceState).giveup = true ∧
    readSamples ⟨true, false, ⟨1, 44100, 16⟩, [10, 20, 30, 40], 100⟩ [] 4 =
      .ok (4, ⟨true, false, ⟨1, 44100, 16⟩, [], 96⟩) :=
  ⟨rfl, rfl⟩

/-- C5 (amended): once the error callback has set the sticky flag,
every `readSamples` call that cannot be served entirely from the
already-buffered samples throws the decoder error (whatever the
decoder oracle would do), while a call whose adjusted request fits the
buffer still completes normally. -/
theorem C5_readSamples_giveup (st : FLACSourceState) (events : List DecodeEvent)
    (nsamples : Nat) (hg : st.giveup = true) :
    (bufferCount st < min nsamples st.remaining →
      readSamples st events nsamples = .error "FLAC decoder error") ∧
    (min nsamples st.remaining ≤ bufferCount st →
      ∃ st2, readSamples st events nsamples =
        .ok (min nsamples st.remaining, st2)) := by
  constructor
  · intro h
    rw [readSamples]
    rw [if_neg (by omega)]
    rw [readSamplesLoop_giveup st events _ hg h]
  · intro h
    rw [readSamples]
    by_cases h0 : min nsamples st.remaining = 0
    · rw [if_pos h0, h0]
      exact ⟨st, rfl⟩
    · rw [if_neg h0]
      rw [readSamplesLoop_drain st events _ h]
      exact ⟨_, rfl⟩

/-- C5 witness: flag set, empty buffer, request 1 of remaining 10 —
the call throws. -/
theorem C5_witness :
    readSamples ⟨true, false, ⟨2, 48000, 24⟩, [], 10⟩ [] 1 =
      .error "FLAC decoder error" :=
  (C5_readSamples_giveup ⟨true, false, ⟨2, 48000, 24⟩, [], 10⟩ [] 1 rfl).1
    (by decide)

theorem range_flatMap_length (f : Nat → List Int) (c : Nat)
    (hc : ∀ j, (f j).length = c) :
    ∀ m, ((List.range m).flatMap f).length = m * c := by
  intro m
  induction m with
  | zero => simp
  | succ m ih =>
    rw [List.range_succ, List.flatMap_append, List.length_append, ih]
    simp [hc]
    ring

theorem range_flatMap_getElem (f : Nat → List Int) (c : Nat)
    (hc : ∀ j, (f j).length = c) :
    ∀ m i n, i < m → n < c →
      ((List.range m).flatMap f)[i * c + n]? = (f i)[n]? := by
  intro m
  induction m with
  | zero => intro i n hi _; exact absurd hi (by omega)
  | succ m ih =>
    intro i n hi hn
    rw [List.range_succ, List.flatMap_append]
    have hlen : ((List.range m).flatMap f).length = m * c :=
      range_flatMap_length f c hc m
    by_cases him : i < m
    · rw [List.getElem?_append]
      rw [if_pos (by rw [hlen]; calc
        i * c + n < i * c + c := by omega
        _ ≤ m * c := by nlinarith)]
      exact ih i n him hn
    · have hi2 : i = m := by omega
      subst hi2
      rw [List.getElem?_append]
      rw [if_neg (by rw [hlen]; omega)]
      rw [hlen]
      simp only [List.flatMap_cons, List.flatMap_nil, List.append_nil]
      congr 1
      omega

/-- C6: `writeCallback` aborts — leaving the buffer untouched — on
any frame whose channel count, sample rate or bit depth differs from
the open-time stream values, making the enclosing `process_single`
fail and `readSamples` raise an error; a matching frame is accepted
and committed, each sample shifted left by `32 − bit depth`, channel-
interleaved per block index. -/
theorem C6_writeCallback (st : FLACSourceState) (hdr : FrameHeader)
    (data : List (List Int)) :
    ((hdr.channels ≠ st.asbd.mChannelsPerFrame ∨
      hdr.sample_rate ≠ st.asbd.mSampleRate ∨
      hdr.bits_per_sample ≠ st.asbd.mBitsPerChannel) →
      writeCallback st hdr data = (.abort, st)) ∧
    (hdr.channels = st.asbd.mChannelsPerFrame →
      hdr.sample_rate = st.asbd.mSampleRate →
      hdr.bits_per_sample = st.asbd.mBitsPerChannel →
      writeCallback st hdr data =
        (.cont, { st with buffer := st.buffer ++ interleaveShifted hdr data }) ∧
      (interleaveShifted hdr data).length = hdr.blocksize * hdr.channels ∧
      (∀ i n, i < hdr.blocksize → n < hdr.channels →
        (interleaveShifted hdr data)[i * hdr.channels + n]? =
          some (wrap32 ((data.getD n []).getD i 0 *
            2 ^ (32 - hdr.bits_per_sample))))) ∧
    (∀ es nsamples, st.giveup = false → st.atEos = false → st.buffer = [] →
      (hdr.channels ≠ st.asbd.mChannelsPerFrame ∨
       hdr.sample_rate ≠ st.asbd.mSampleRate ∨
       hdr.bits_per_sample ≠ st.asbd.mBitsPerChannel) →
      0 < min nsamples st.remaining →
      readSamples st (.frame hdr data :: es) nsamples =
        .error "stream_decoder_process_single failed") := by
  have habort : (hdr.channels ≠ st.asbd.mChannelsPerFrame ∨
      hdr.sample_rate ≠ st.asbd.mSampleRate ∨
      hdr.bits_per_sample ≠ st.asbd.mBitsPerChannel) →
      writeCallback st hdr data = (.abort, st) := by
    intro h
    rw [writeCallback, if_pos h]
  refine ⟨habort, ?_, ?_⟩
  · intro h1 h2 h3
    refine ⟨by rw [writeCallback, if_neg (by simp [h1, h2, h3])], ?_, ?_⟩
    · exact range_flatMap_length _ _ (fun j => by simp) hdr.blocksize
    · intro i n hi hn
      unfold interleaveShifted
      rw [range_flatMap_getElem _ _ (fun j => by simp) hdr.blocksize i n hi hn]
      rw [List.getElem?_map, List.getElem?_range hn]
      rfl
  · intro es nsamples hg he hb hmis hpos
    rw [readSamples]
    rw [if_neg (by omega)]
    have hdrain : drainBuffer st (min nsamples st.remaining) =
        (st, min nsamples st.remaining) := by
      rw [drainBuffer]
      have hbc : bufferCount st = 0 := by simp [bufferCount, hb]
      rw [hbc]
      simp
    rw [readSamplesLoop, hdrain]
    rw [if_neg (by omega), if_neg (by simp [hg]), if_neg (by simp [he])]
    rw [show processSingle st (.frame hdr data) =
        .error "stream_decoder_process_single failed" by
      rw [processSingle, habort hmis]]

/-- C6 witness: a one-channel stream rejects a two-channel frame, and
`readSamples` surfaces the failure. -/
theorem C6_witness :
    writeCallback ⟨false, false, ⟨1, 44100, 16⟩, [], 10⟩ ⟨2, 44100, 16, 4⟩ [] =
      (.abort, ⟨false, false, ⟨1, 44100, 16⟩, [], 10⟩) ∧
    readSamples ⟨false, false, ⟨1, 44100, 16⟩, [], 10⟩
        [.frame ⟨2, 44100, 16, 4⟩ []] 4 =
      .error "stream_decoder_process_single failed" :=
  ⟨(C6_writeCallback ⟨false, false, ⟨1, 44100, 16⟩, [], 10⟩ ⟨2, 44100, 16, 4⟩ []).1
      (by decide),
   (C6_writeCallback ⟨false, false, ⟨1, 44100, 16⟩, [], 10⟩ ⟨2, 44100, 16, 4⟩ []).2.2
      [] 4 rfl rfl rfl (by decide) (by decide)⟩

end Qaac
